import Mathlib

/-
  Shallow embedding of the Express-API-Server-Template repository.

  The embedding follows the source files:
  - src/src/models/index.js        (class Model: fluent query builder)
  - src/src/managers/database.js   (class DatabaseManager, pool variant)
  - src/src/managers/route.js      (class RouteManager, middleware pipeline)
  - src/src/entities/configManager.js (class ConfigManager)

  JS strings are Lean Strings; JS `Array.prototype.join(sep)` is `jsJoin sep`;
  JS objects with string keys are insertion-ordered association lists, with
  object spread modelled by `objMerge`.  Apostrophes inside string literals
  are written with the escape \x27.
-/

namespace ExpressApi

/-- JS Array.prototype.join: elements joined by a separator, empty array gives "". -/
def jsJoin (sep : String) : List String → String
  | [] => ""
  | [x] => x
  | x :: y :: xs => x ++ sep ++ jsJoin sep (y :: xs)

/-- Entries of the dynamically-typed `query.values` array of the builder:
scalar values (strings in every claim), or a whole row array as produced by
`insert` with an array argument (`data.map(item => Object.values(item))`). -/
inductive JVal where
  | scalar (s : String)
  | arr (xs : List String)
deriving DecidableEq, Repr

/-- JS String(..) coercion used when an array element is itself an array
(Array.prototype.toString joins with ","). -/
def JVal.toJsString : JVal → String
  | .scalar s => s
  | .arr xs => jsJoin "," xs

/-- JS object spread `{...a, ...kv}` step: an existing key keeps its position and
gets the new value, a new key is appended. -/
def objInsert (m : List (String × String)) (kv : String × String) : List (String × String) :=
  if m.any (fun p => p.1 = kv.1) then m.map (fun p => if p.1 = kv.1 then kv else p)
  else m ++ [kv]

/-- JS object spread `{...a, ...b}` on string-keyed objects. -/
def objMerge (a b : List (String × String)) : List (String × String) :=
  b.foldl objInsert a

/-- The three values ever stored in `query.type` ('select' | 'insert' | 'update'). -/
inductive QueryType where
  | select
  | insert
  | update
deriving DecidableEq, Repr

/-- The mutable builder state set up by `Model._resetQuery` (src/src/models/index.js:65-81).
`whereEq` embeds the JS field `where` (a keyword in Lean). -/
structure Query where
  type : Option QueryType
  select : List String
  columns : List String
  values : List JVal
  whereEq : List (String × String)
  whereIn : List (String × List String)
  joins : List (String × String × String)
  search : List (String × String)
  limit : Option Nat
  offset : Option Nat
  orderBy : Option String
  order : Option String
deriving DecidableEq, Repr

/-- The default empty descriptor `_resetQuery` installs. -/
def emptyQuery : Query :=
  { type := none, select := [], columns := [], values := [], whereEq := [], whereIn := []
  , joins := [], search := [], limit := none, offset := none, orderBy := none, order := none }

/-- The Model instance state: table name, the private `#sql` string, and the
query descriptor. -/
structure Model where
  tableName : String
  sql : String
  query : Query
deriving DecidableEq, Repr

/-- `new Model(tableName, connection)`: stores the table name and resets the query. -/
def Model.make (tableName : String) : Model :=
  { tableName := tableName, sql := "", query := emptyQuery }

/-- `Model._resetQuery` (lines 65-81): clears `#sql` and the descriptor. -/
def Model.resetQuery (m : Model) : Model :=
  { m with sql := "", query := emptyQuery }

/-- `Model.select(columns = ['*'])` (lines 88-92); the JS default argument is `['*']`. -/
def Model.select (m : Model) (columns : List String) : Model :=
  { m with query := { m.query with
      type := some .select
      select := m.query.select ++ [jsJoin ", " (columns.map (fun c => m.tableName ++ "." ++ c))] } }

/-- `Model.insert(data)` (lines 99-109), array branch:
`columns = Object.keys(data[0])`, `values = data.map(item => Object.values(item))`
(each row stays a nested array, the values are NOT flattened).
For `data = []` the source throws on `Object.keys(undefined)`; this embedding is
used with non-empty data only. -/
def Model.insertRows (m : Model) (data : List (List (String × String))) : Model :=
  { m with query := { m.query with
      type := some .insert
      columns := (data.headD []).map Prod.fst
      values := data.map (fun item => JVal.arr (item.map Prod.snd)) } }

/-- `Model.insert(data)` (lines 99-109), single-object branch:
`columns = Object.keys(data)`, `values = Object.values(data)`. -/
def Model.insertOne (m : Model) (data : List (String × String)) : Model :=
  { m with query := { m.query with
      type := some .insert
      columns := data.map Prod.fst
      values := data.map (fun p => JVal.scalar p.2) } }

/-- `Model.update(data)` (lines 116-121). -/
def Model.update (m : Model) (data : List (String × String)) : Model :=
  { m with query := { m.query with
      type := some .update
      columns := data.map Prod.fst
      values := data.map (fun p => JVal.scalar p.2) } }

/-- `Model.where(conditions)` (lines 128-131): object spread merge. -/
def Model.where_ (m : Model) (conditions : List (String × String)) : Model :=
  { m with query := { m.query with whereEq := objMerge m.query.whereEq conditions } }

/-- `Model.whereIn(column, values)` (lines 138-141). -/
def Model.whereIn (m : Model) (column : String) (values : List String) : Model :=
  { m with query := { m.query with whereIn := m.query.whereIn ++ [(column, values)] } }

/-- `Model.join(type, table, conditions, columns)` (lines 150-156), called with all
four arguments (`arguments.length === 4`). -/
def Model.join (m : Model) (type table conditions : String) (columns : List String) : Model :=
  { m with query := { m.query with
      joins := m.query.joins ++ [(type, table, conditions)]
      select := m.query.select ++ [jsJoin ", " (columns.map (fun c => table ++ "." ++ c))] } }

/-- `Model.search(conditions)` (lines 181-184): object spread merge. -/
def Model.search (m : Model) (conditions : List (String × String)) : Model :=
  { m with query := { m.query with search := objMerge m.query.search conditions } }

/-- `Model.orderBy(column = 'created_at', order = 'DESC')` (lines 186-190). -/
def Model.orderBy (m : Model) (column order : String) : Model :=
  { m with query := { m.query with orderBy := some column, order := some order } }

/-- `Model.limit(limit)` (lines 196-199). -/
def Model.limit (m : Model) (n : Nat) : Model :=
  { m with query := { m.query with limit := some n } }

/-- `Model.offset(offset)` (lines 206-209). -/
def Model.offset (m : Model) (n : Nat) : Model :=
  { m with query := { m.query with offset := some n } }

/-- Decimal digit character, for JS template interpolation of a number. -/
def decChar (d : Nat) : Char :=
  match d with
  | 0 => '0' | 1 => '1' | 2 => '2' | 3 => '3' | 4 => '4'
  | 5 => '5' | 6 => '6' | 7 => '7' | 8 => '8' | _ => '9'

/-- Decimal digits of a natural number, most significant first.  The first
argument is structural fuel (any fuel above the digit count gives the same
result; `decStr` passes `n + 1`, which suffices since `n / 10` at least halves). -/
def decDigitsAux : Nat → Nat → List Char
  | 0, _ => []
  | fuel + 1, n =>
    if n < 10 then [decChar n]
    else decDigitsAux fuel (n / 10) ++ [decChar (n % 10)]

/-- Decimal rendering of a natural number, as JS `${n}` renders numbers. -/
def decStr (n : Nat) : String :=
  String.mk (decDigitsAux (n + 1) n)

/-- `values.map(() => '?').join(', ')` (line 248). -/
def qMarks (vs : List String) : String :=
  jsJoin ", " (vs.map (fun _ => "?"))

/-- `Object.keys(where).map(key => table.key = ?).join(' AND ')` (lines 241, 278). -/
def whereEqSql (t : String) (l : List (String × String)) : String :=
  jsJoin " AND " (l.map (fun p => t ++ "." ++ p.1 ++ " = ?"))

/-- `Object.values(where)` appended to the parameter list (lines 242, 279). -/
def whereEqVals (l : List (String × String)) : List JVal :=
  l.map (fun p => JVal.scalar p.2)

/-- `whereIn.map(cond => cond.column IN (...))` coerced to a string by `+=`:
JS Array-to-string joins the predicates with "," (lines 248, 285). -/
def whereInSql (l : List (String × List String)) : String :=
  jsJoin "," (l.map (fun w => w.1 ++ " IN (" ++ qMarks w.2 ++ ")"))

/-- `whereIn.flatMap(cond => cond.values)` appended to the parameter list (lines 249, 286). -/
def whereInVals (l : List (String × List String)) : List JVal :=
  (l.flatMap (fun w => w.2)).map JVal.scalar

/-- `Object.keys(search).map(key => table.key LIKE ?).join(' AND ')` (line 255).
Note the source never appends `Object.values(search)` to the parameter list. -/
def searchSql (t : String) (l : List (String × String)) : String :=
  jsJoin " AND " (l.map (fun p => t ++ "." ++ p.1 ++ " LIKE ?"))

/-- `joins.map(join => ...).join('')` (line 238). -/
def joinsSql (l : List (String × String × String)) : String :=
  jsJoin "" (l.map (fun j => " " ++ j.1 ++ " JOIN " ++ j.2.1 ++ " ON " ++ j.2.2))

/-- `columns.map(column => column = ?).join(', ')` of the UPDATE SET clause (line 275). -/
def setSql (cols : List String) : String :=
  jsJoin ", " (cols.map (fun c => c ++ " = ?"))

/-- The insert-branch reduce (lines 266-270): values grouped into chunks of
`columns.length` consecutive elements (`chunkIndex = floor(index / columns.length)`),
producing `ceil(values.length / columns.length)` chunks; for `columns.length = 0`
the JS chunk indices are NaN/Infinity and the array stays empty, matching
`List.range 0 = []` here. -/
def chunkBy (len : Nat) (l : List JVal) : List (List JVal) :=
  (List.range ((l.length + len - 1) / len)).map (fun i => (l.drop (i * len)).take len)

/-- `.map(chunk => ('chunk.join("','")')).join('')` of the insert branch (line 271). -/
def insertValuesSql (chunks : List (List JVal)) : String :=
  jsJoin "" (chunks.map (fun chunk =>
    "(\x27" ++ jsJoin "\x27,\x27" (chunk.map JVal.toJsString) ++ "\x27)"))

/-- `if (this.query.orderBy) this.#sql += ...`-style optional clause: appends
`pre ++ c` when the field is set (JS truthiness of a string field is modelled by
`Option.isSome`). -/
def optStrSuffix (s pre : String) : Option String → String
  | some c => s ++ pre ++ c
  | none => s

/-- `if (this.query.limit !== null) this.#sql += ...`-style optional numeric clause. -/
def optNumSuffix (s pre : String) : Option Nat → String
  | some n => s ++ pre ++ decStr n
  | none => s

/-- `Model._prepareSelectQueryString` (lines 233-294), translated branch by branch.
The final statement `this.#sql += ';'` runs after the switch in every case. -/
def Model.prepareSelectQueryString (m : Model) : Model :=
  let q := m.query
  match q.type with
  | some .select =>
    let sql1 := "SELECT " ++ jsJoin ", " q.select ++ " FROM " ++ m.tableName
    let sql2 := if q.joins.length > 0 then sql1 ++ joinsSql q.joins else sql1
    let sql3 := if q.whereEq.length > 0 then sql2 ++ " WHERE " ++ whereEqSql m.tableName q.whereEq else sql2
    let vals3 := if q.whereEq.length > 0 then q.values ++ whereEqVals q.whereEq else q.values
    let sql4 := if q.whereIn.length > 0 then
        sql3 ++ (if q.whereEq.length > 0 then " AND " else " WHERE ") ++ whereInSql q.whereIn
      else sql3
    let vals4 := if q.whereIn.length > 0 then vals3 ++ whereInVals q.whereIn else vals3
    let sql5 := if q.search.length > 0 then
        sql4 ++ (if q.whereEq.length > 0 || q.whereIn.length > 0 then " AND " else " WHERE ")
             ++ searchSql m.tableName q.search
      else sql4
    let sql6 := optStrSuffix sql5 " ORDER BY " q.orderBy
    let sql7 := optStrSuffix sql6 " " q.order
    let sql8 := optNumSuffix sql7 " LIMIT " q.limit
    let sql9 := optNumSuffix sql8 " OFFSET " q.offset
    { m with sql := sql9 ++ ";", query := { q with values := vals4 } }
  | some .insert =>
    let val := insertValuesSql (chunkBy q.columns.length q.values)
    { m with sql := m.sql ++ "INSERT INTO " ++ m.tableName ++ " (" ++ jsJoin ", " q.columns
                         ++ ") VALUES " ++ val ++ ";" }
  | some .update =>
    let sql1 := m.sql ++ "UPDATE " ++ m.tableName ++ " SET " ++ setSql q.columns
    let sql2 := if q.whereEq.length > 0 then sql1 ++ " WHERE " ++ whereEqSql m.tableName q.whereEq else sql1
    let vals2 := if q.whereEq.length > 0 then q.values ++ whereEqVals q.whereEq else q.values
    let sql3 := if q.whereIn.length > 0 then
        sql2 ++ (if q.whereEq.length > 0 then " AND " else " WHERE ") ++ whereInSql q.whereIn
      else sql2
    let vals3 := if q.whereIn.length > 0 then vals2 ++ whereInVals q.whereIn else vals2
    let sql4 := optNumSuffix sql3 " LIMIT " q.limit
    { m with sql := sql4 ++ ";", query := { q with values := vals3 } }
  | none =>
    { m with sql := m.sql ++ ";" }

/-- The pair `(sql, values)` that `Model.execute` (lines 215-226) hands to
`connection.executeQuery` after `_prepareSelectQueryString`. -/
def Model.executedCall (m : Model) : String × List JVal :=
  let m1 := m.prepareSelectQueryString
  (m1.sql, m1.query.values)

/-- The builder state after a successful `execute()`: prepare, then `_resetQuery`. -/
def Model.executeState (m : Model) : Model :=
  m.prepareSelectQueryString.resetQuery

/-- Number of `?` placeholders in a SQL string. -/
def countQMarks (s : String) : Nat :=
  s.data.countP (fun c => c = '?')

/-- Total number of values over all whereIn predicates: the number of `?`
placeholders the whereIn clause should bind. -/
def whereInQCount (l : List (String × List String)) : Nat :=
  (l.map (fun w => w.2.length)).sum

theorem countQMarks_append (a b : String) :
    countQMarks (a ++ b) = countQMarks a + countQMarks b := by
  simp [countQMarks, String.data_append]

theorem countQMarks_jsJoin (sep : String) (hsep : countQMarks sep = 0) (l : List String) :
    countQMarks (jsJoin sep l) = (l.map countQMarks).sum := by
  induction l with
  | nil => simp [jsJoin, countQMarks]
  | cons x xs ih =>
    cases xs with
    | nil => simp [jsJoin]
    | cons y ys =>
      simp only [jsJoin, List.map_cons, List.sum_cons] at ih ⊢
      rw [countQMarks_append, countQMarks_append, hsep, ih]
      omega

theorem decChar_ne_qmark (d : Nat) : decChar d ≠ '?' := by
  unfold decChar
  split <;> decide

theorem decDigitsAux_no_qmark (fuel n : Nat) :
    (decDigitsAux fuel n).countP (fun c => c = '?') = 0 := by
  induction fuel generalizing n with
  | zero => simp [decDigitsAux]
  | succ fuel ih =>
    simp only [decDigitsAux]
    split
    · simp [decChar_ne_qmark]
    · simp [List.countP_append, ih, decChar_ne_qmark]

theorem countQMarks_decStr (n : Nat) : countQMarks (decStr n) = 0 := by
  simp [decStr, countQMarks, decDigitsAux_no_qmark]

theorem countQMarks_qMarks (vs : List String) : countQMarks (qMarks vs) = vs.length := by
  have h1 : countQMarks "?" = 1 := by decide
  unfold qMarks
  rw [countQMarks_jsJoin _ (by decide)]
  induction vs with
  | nil => simp
  | cons v vs ih =>
    simp_all
    omega

theorem countQMarks_whereEqSql (t : String) (l : List (String × String))
    (ht : countQMarks t = 0) (hl : ∀ p ∈ l, countQMarks p.1 = 0) :
    countQMarks (whereEqSql t l) = l.length := by
  unfold whereEqSql
  rw [countQMarks_jsJoin _ (by decide)]
  induction l with
  | nil => simp
  | cons p ps ih =>
    have hp : countQMarks p.1 = 0 := hl p (by simp)
    have hrest : ∀ q ∈ ps, countQMarks q.1 = 0 := fun q hq => hl q (by simp [hq])
    simp only [List.map_cons, List.sum_cons, ih hrest]
    rw [countQMarks_append, countQMarks_append, countQMarks_append, ht, hp]
    have h1 : countQMarks "." = 0 := by decide
    have h2 : countQMarks " = ?" = 1 := by decide
    simp only [List.length_cons]
    omega

theorem countQMarks_searchSql (t : String) (l : List (String × String))
    (ht : countQMarks t = 0) (hl : ∀ p ∈ l, countQMarks p.1 = 0) :
    countQMarks (searchSql t l) = l.length := by
  unfold searchSql
  rw [countQMarks_jsJoin _ (by decide)]
  induction l with
  | nil => simp
  | cons p ps ih =>
    have hp : countQMarks p.1 = 0 := hl p (by simp)
    have hrest : ∀ q ∈ ps, countQMarks q.1 = 0 := fun q hq => hl q (by simp [hq])
    simp only [List.map_cons, List.sum_cons, ih hrest]
    rw [countQMarks_append, countQMarks_append, countQMarks_append, ht, hp]
    have h1 : countQMarks "." = 0 := by decide
    have h2 : countQMarks " LIKE ?" = 1 := by decide
    simp only [List.length_cons]
    omega

theorem countQMarks_whereInSql (l : List (String × List String))
    (hl : ∀ w ∈ l, countQMarks w.1 = 0) :
    countQMarks (whereInSql l) = whereInQCount l := by
  unfold whereInSql whereInQCount
  rw [countQMarks_jsJoin _ (by decide)]
  induction l with
  | nil => simp
  | cons w ws ih =>
    have hw : countQMarks w.1 = 0 := hl w (by simp)
    have hrest : ∀ v ∈ ws, countQMarks v.1 = 0 := fun v hv => hl v (by simp [hv])
    simp only [List.map_cons, List.sum_cons, ih hrest]
    rw [countQMarks_append, countQMarks_append, countQMarks_append, hw, countQMarks_qMarks]
    have : countQMarks " IN (" = 0 := by decide
    have h2 : countQMarks ")" = 0 := by decide
    omega

theorem countQMarks_joinsSql (l : List (String × String × String))
    (hl : ∀ j ∈ l, countQMarks j.1 = 0 ∧ countQMarks j.2.1 = 0 ∧ countQMarks j.2.2 = 0) :
    countQMarks (joinsSql l) = 0 := by
  unfold joinsSql
  rw [countQMarks_jsJoin _ (by decide)]
  induction l with
  | nil => simp
  | cons j js ih =>
    have hj := hl j (by simp)
    have hrest : ∀ v ∈ js, countQMarks v.1 = 0 ∧ countQMarks v.2.1 = 0 ∧ countQMarks v.2.2 = 0 :=
      fun v hv => hl v (by simp [hv])
    simp only [List.map_cons, List.sum_cons, ih hrest]
    rw [countQMarks_append, countQMarks_append, countQMarks_append, countQMarks_append,
       countQMarks_append]
    have h1 : countQMarks " " = 0 := by decide
    have h2 : countQMarks " JOIN " = 0 := by decide
    have h3 : countQMarks " ON " = 0 := by decide
    omega

theorem countQMarks_setSql (cols : List String) (hl : ∀ c ∈ cols, countQMarks c = 0) :
    countQMarks (setSql cols) = cols.length := by
  unfold setSql
  rw [countQMarks_jsJoin _ (by decide)]
  induction cols with
  | nil => simp
  | cons c cs ih =>
    have hc : countQMarks c = 0 := hl c (by simp)
    have hrest : ∀ v ∈ cs, countQMarks v = 0 := fun v hv => hl v (by simp [hv])
    simp only [List.map_cons, List.sum_cons, ih hrest]
    rw [countQMarks_append, hc]
    have h2 : countQMarks " = ?" = 1 := by decide
    simp only [List.length_cons]
    omega

theorem length_whereEqVals (l : List (String × String)) :
    (whereEqVals l).length = l.length := by
  simp [whereEqVals]

theorem length_whereInVals (l : List (String × List String)) :
    (whereInVals l).length = whereInQCount l := by
  unfold whereInVals whereInQCount
  induction l with
  | nil => simp
  | cons w ws ih => simp_all

theorem countQMarks_ite1 (c : Prop) [Decidable c] (s a : String) :
    countQMarks (if c then s ++ a else s)
      = countQMarks s + (if c then countQMarks a else 0) := by
  split <;> simp [countQMarks_append]

theorem countQMarks_ite2 (c : Prop) [Decidable c] (s a b : String) :
    countQMarks (if c then s ++ a ++ b else s)
      = countQMarks s + (if c then countQMarks a + countQMarks b else 0) := by
  split <;> (simp [countQMarks_append]; try omega)

theorem countQMarks_connective (c : Prop) [Decidable c] :
    countQMarks (if c then " AND " else " WHERE ") = 0 := by
  split <;> decide

theorem countQMarks_optStrSuffix (s pre : String) (o : Option String)
    (h : ∀ c, o = some c → countQMarks c = 0) (hpre : countQMarks pre = 0) :
    countQMarks (optStrSuffix s pre o) = countQMarks s := by
  cases o with
  | none => rfl
  | some c =>
    show countQMarks (s ++ pre ++ c) = countQMarks s
    rw [countQMarks_append, countQMarks_append, hpre, h c rfl]
    omega

theorem countQMarks_optNumSuffix (s pre : String) (o : Option Nat)
    (hpre : countQMarks pre = 0) :
    countQMarks (optNumSuffix s pre o) = countQMarks s := by
  cases o with
  | none => rfl
  | some n =>
    show countQMarks (s ++ pre ++ decStr n) = countQMarks s
    rw [countQMarks_append, countQMarks_append, hpre, countQMarks_decStr]
    omega

/-- Placeholder/parameter bookkeeping of the select branch of
`_prepareSelectQueryString`, over arbitrary descriptor contents: the prepared
SQL contains one `?` per equality predicate, per whereIn value, and per search
key, while the parameter list receives the equality values and the whereIn
values only — never the search values. -/
theorem prepare_select_counts
    (t sql0 : String) (sel : List String) (cols : List String) (vals : List JVal)
    (weq : List (String × String)) (win : List (String × List String))
    (js : List (String × String × String)) (sr : List (String × String))
    (lim off : Option Nat) (ob ord : Option String)
    (ht : countQMarks t = 0)
    (hsel : ∀ s ∈ sel, countQMarks s = 0)
    (hw : ∀ p ∈ weq, countQMarks p.1 = 0)
    (hwin : ∀ w ∈ win, countQMarks w.1 = 0)
    (hj : ∀ j ∈ js, countQMarks j.1 = 0 ∧ countQMarks j.2.1 = 0 ∧ countQMarks j.2.2 = 0)
    (hsr : ∀ p ∈ sr, countQMarks p.1 = 0)
    (hob : ∀ c, ob = some c → countQMarks c = 0)
    (hord : ∀ o, ord = some o → countQMarks o = 0) :
    countQMarks (Model.prepareSelectQueryString
        ⟨t, sql0, ⟨some .select, sel, cols, vals, weq, win, js, sr, lim, off, ob, ord⟩⟩).sql
      = weq.length + whereInQCount win + sr.length
    ∧ (Model.prepareSelectQueryString
        ⟨t, sql0, ⟨some .select, sel, cols, vals, weq, win, js, sr, lim, off, ob, ord⟩⟩).query.values
      = vals ++ whereEqVals weq ++ whereInVals win := by
  have Hsel : countQMarks (jsJoin ", " sel) = 0 := by
    rw [countQMarks_jsJoin _ (by decide)]
    exact List.sum_eq_zero (fun x hx => by
      obtain ⟨s, hs, rfl⟩ := List.mem_map.1 hx
      exact hsel s hs)
  have Hweq := countQMarks_whereEqSql t weq ht hw
  have Hwin := countQMarks_whereInSql win hwin
  have Hsr := countQMarks_searchSql t sr ht hsr
  have Hjs := countQMarks_joinsSql js hj
  have hWh : countQMarks " WHERE " = 0 := by decide
  have hSe : countQMarks "SELECT " = 0 := by decide
  have hFr : countQMarks " FROM " = 0 := by decide
  have hSc : countQMarks ";" = 0 := by decide
  constructor
  · simp only [Model.prepareSelectQueryString]
    rw [countQMarks_append,
        countQMarks_optNumSuffix _ _ _ (by decide),
        countQMarks_optNumSuffix _ _ _ (by decide),
        countQMarks_optStrSuffix _ _ _ hord (by decide),
        countQMarks_optStrSuffix _ _ _ hob (by decide),
        countQMarks_ite2, countQMarks_ite2, countQMarks_ite2, countQMarks_ite1,
        countQMarks_append, countQMarks_append, countQMarks_append,
        Hsel, Hweq, Hwin, Hsr, Hjs, ht, countQMarks_connective, countQMarks_connective,
        hWh, hSe, hFr, hSc]
    rcases win with _ | ⟨w0, ws⟩
    · simp only [whereInQCount, List.map_nil, List.sum_nil, List.length_nil]
      split_ifs <;> omega
    · have hpos : (w0 :: ws).length > 0 := by simp
      split_ifs <;> omega
  · simp only [Model.prepareSelectQueryString]
    split_ifs <;> simp_all [whereEqVals, whereInVals, List.length_eq_zero]

/-- Placeholder/parameter bookkeeping of the update branch of
`_prepareSelectQueryString`: one `?` per SET column, per equality predicate and
per whereIn value; the parameter list holds the SET values followed by the
equality values and the whereIn values. -/
theorem prepare_update_counts
    (t sql0 : String) (sel : List String) (cols : List String) (vals : List JVal)
    (weq : List (String × String)) (win : List (String × List String))
    (js : List (String × String × String)) (sr : List (String × String))
    (lim off : Option Nat) (ob ord : Option String)
    (hsql0 : countQMarks sql0 = 0)
    (ht : countQMarks t = 0)
    (hcols : ∀ c ∈ cols, countQMarks c = 0)
    (hw : ∀ p ∈ weq, countQMarks p.1 = 0)
    (hwin : ∀ w ∈ win, countQMarks w.1 = 0) :
    countQMarks (Model.prepareSelectQueryString
        ⟨t, sql0, ⟨some .update, sel, cols, vals, weq, win, js, sr, lim, off, ob, ord⟩⟩).sql
      = cols.length + weq.length + whereInQCount win
    ∧ (Model.prepareSelectQueryString
        ⟨t, sql0, ⟨some .update, sel, cols, vals, weq, win, js, sr, lim, off, ob, ord⟩⟩).query.values
      = vals ++ whereEqVals weq ++ whereInVals win := by
  have Hset := countQMarks_setSql cols hcols
  have Hweq := countQMarks_whereEqSql t weq ht hw
  have Hwin := countQMarks_whereInSql win hwin
  have hWh : countQMarks " WHERE " = 0 := by decide
  have hUp : countQMarks "UPDATE " = 0 := by decide
  have hSt : countQMarks " SET " = 0 := by decide
  have hSc : countQMarks ";" = 0 := by decide
  constructor
  · simp only [Model.prepareSelectQueryString]
    rw [countQMarks_append,
        countQMarks_optNumSuffix _ _ _ (by decide),
        countQMarks_ite2, countQMarks_ite2,
        countQMarks_append, countQMarks_append, countQMarks_append, countQMarks_append,
        hsql0, ht, Hset, Hweq, Hwin, countQMarks_connective, hWh, hUp, hSt, hSc]
    rcases win with _ | ⟨w0, ws⟩
    · simp only [whereInQCount, List.map_nil, List.sum_nil, List.length_nil]
      split_ifs <;> omega
    · have hpos : (w0 :: ws).length > 0 := by simp
      split_ifs <;> omega
  · simp only [Model.prepareSelectQueryString]
    split_ifs <;> simp_all [whereEqVals, whereInVals, List.length_eq_zero]

/-- One fluent builder call after the initial `select(...)` / `update(...)`:
the modifier methods of the Model class (search included, so that search-free
chains can be singled out). -/
inductive Op where
  | whereOp (conds : List (String × String))
  | whereInOp (col : String) (vals : List String)
  | joinOp (jt jtable jcond : String) (cols : List String)
  | searchOp (conds : List (String × String))
  | orderByOp (col ord : String)
  | limitOp (n : Nat)
  | offsetOp (n : Nat)
deriving DecidableEq, Repr

/-- Dispatch one fluent call to the corresponding Model method. -/
def Model.applyOp (m : Model) : Op → Model
  | .whereOp c => m.where_ c
  | .whereInOp c v => m.whereIn c v
  | .joinOp a b c d => m.join a b c d
  | .searchOp c => m.search c
  | .orderByOp c o => m.orderBy c o
  | .limitOp n => m.limit n
  | .offsetOp n => m.offset n

/-- A whole fluent chain applied left to right. -/
def Model.applyChain (m : Model) (ops : List Op) : Model :=
  ops.foldl Model.applyOp m

/-- True when the call is not a `search(...)` call. -/
def Op.noSearch : Op → Bool
  | .searchOp _ => false
  | _ => true

/-- The strings a call contributes to the SQL text contain no `?` character
(column and table identifiers; whereIn/where values only reach the parameter
list, so they are unconstrained). -/
def Op.cleanB : Op → Bool
  | .whereOp c => c.all (fun p => countQMarks p.1 == 0)
  | .whereInOp col _ => countQMarks col == 0
  | .joinOp a b c d =>
      (countQMarks a == 0) && (countQMarks b == 0) && (countQMarks c == 0)
        && d.all (fun x => countQMarks x == 0)
  | .searchOp c => c.all (fun p => countQMarks p.1 == 0)
  | .orderByOp c o => (countQMarks c == 0) && (countQMarks o == 0)
  | .limitOp _ => true
  | .offsetOp _ => true

theorem mem_objInsert (m : List (String × String)) (kv p : String × String)
    (h : p ∈ objInsert m kv) : p ∈ m ∨ p = kv := by
  unfold objInsert at h
  split at h
  · obtain ⟨q, hq, hq2⟩ := List.mem_map.1 h
    by_cases hc : q.1 = kv.1
    · simp only [if_pos hc] at hq2
      right; exact hq2.symm
    · simp only [if_neg hc] at hq2
      left; exact hq2 ▸ hq
  · rcases List.mem_append.1 h with h1 | h1
    · left; exact h1
    · right; simpa using h1

theorem mem_objMerge (a b : List (String × String)) (p : String × String)
    (h : p ∈ objMerge a b) : p ∈ a ∨ p ∈ b := by
  induction b generalizing a with
  | nil => left; simpa [objMerge] using h
  | cons x xs ih =>
    rcases ih (objInsert a x) (by simpa [objMerge] using h) with h1 | h1
    · rcases mem_objInsert _ _ _ h1 with h2 | h2
      · left; exact h2
      · right; simp [h2]
    · right; simp [h1]

/-- No call in the chain touches the table name, the `#sql` buffer, the query
type, the accumulated values, the insert/update columns, or (for search-free
chains) the search map. -/
theorem applyChain_fixed (m : Model) (ops : List Op) (hns : ops.all Op.noSearch = true) :
    (Model.applyChain m ops).tableName = m.tableName ∧
    (Model.applyChain m ops).sql = m.sql ∧
    (Model.applyChain m ops).query.type = m.query.type ∧
    (Model.applyChain m ops).query.values = m.query.values ∧
    (Model.applyChain m ops).query.columns = m.query.columns ∧
    (Model.applyChain m ops).query.search = m.query.search := by
  induction ops generalizing m with
  | nil => simp [Model.applyChain]
  | cons op ops ih =>
    simp only [List.all_cons, Bool.and_eq_true] at hns
    have step := ih (Model.applyOp m op) hns.2
    have hop := hns.1
    cases op <;>
      simp_all [Model.applyChain, Model.applyOp, Model.where_, Model.whereIn, Model.join,
        Model.search, Model.orderBy, Model.limit, Model.offset, Op.noSearch]

/-- Cleanliness of the growable descriptor fields: every string that the select
branch of `_prepareSelectQueryString` splices into the SQL text is free of `?`. -/
def QueryClean (q : Query) : Prop :=
  (∀ s ∈ q.select, countQMarks s = 0) ∧
  (∀ p ∈ q.whereEq, countQMarks p.1 = 0) ∧
  (∀ w ∈ q.whereIn, countQMarks w.1 = 0) ∧
  (∀ j ∈ q.joins, countQMarks j.1 = 0 ∧ countQMarks j.2.1 = 0 ∧ countQMarks j.2.2 = 0) ∧
  (∀ p ∈ q.search, countQMarks p.1 = 0) ∧
  (∀ c, q.orderBy = some c → countQMarks c = 0) ∧
  (∀ o, q.order = some o → countQMarks o = 0)

theorem countQMarks_qualified (t : String) (cols : List String)
    (ht : countQMarks t = 0) (hcols : ∀ c ∈ cols, countQMarks c = 0) :
    countQMarks (jsJoin ", " (cols.map (fun c => t ++ "." ++ c))) = 0 := by
  rw [countQMarks_jsJoin _ (by decide)]
  refine List.sum_eq_zero (fun x hx => ?_)
  obtain ⟨s, hs, rfl⟩ := List.mem_map.1 hx
  obtain ⟨c, hc, rfl⟩ := List.mem_map.1 hs
  rw [countQMarks_append, countQMarks_append, ht, hcols c hc]
  decide

theorem applyOp_clean (m : Model) (op : Op) (hop : Op.cleanB op = true)
    (hq : QueryClean m.query) : QueryClean (Model.applyOp m op).query := by
  obtain ⟨h1, h2, h3, h4, h5, h6, h7⟩ := hq
  cases op with
  | whereOp c =>
    have hcp : ∀ a b, (a, b) ∈ c → countQMarks a = 0 := by simpa [Op.cleanB] using hop
    refine ⟨h1, ?_, h3, h4, h5, h6, h7⟩
    intro p hp
    rcases mem_objMerge _ _ _ hp with hm | hm
    · exact h2 p hm
    · exact hcp p.1 p.2 hm
  | whereInOp col v =>
    refine ⟨h1, h2, ?_, h4, h5, h6, h7⟩
    intro w hw
    rcases List.mem_append.1 hw with hm | hm
    · exact h3 w hm
    · have : w = (col, v) := by simpa using hm
      subst this
      simpa [Op.cleanB] using hop
  | joinOp a b c d =>
    simp only [Op.cleanB, Bool.and_eq_true, beq_iff_eq] at hop
    obtain ⟨⟨⟨ha, hb⟩, hc⟩, hd⟩ := hop
    refine ⟨?_, h2, h3, ?_, h5, h6, h7⟩
    · intro s hs
      rcases List.mem_append.1 hs with hm | hm
      · exact h1 s hm
      · have : s = jsJoin ", " (d.map (fun c => b ++ "." ++ c)) := by simpa using hm
        subst this
        exact countQMarks_qualified b d hb
          (fun x hx => by simpa using List.all_eq_true.1 hd x hx)
    · intro j hj
      rcases List.mem_append.1 hj with hm | hm
      · exact h4 j hm
      · have : j = (a, b, c) := by simpa using hm
        subst this
        exact ⟨ha, hb, hc⟩
  | searchOp c =>
    have hcp : ∀ a b, (a, b) ∈ c → countQMarks a = 0 := by simpa [Op.cleanB] using hop
    refine ⟨h1, h2, h3, h4, ?_, h6, h7⟩
    intro p hp
    rcases mem_objMerge _ _ _ hp with hm | hm
    · exact h5 p hm
    · exact hcp p.1 p.2 hm
  | orderByOp c o =>
    simp only [Op.cleanB, Bool.and_eq_true, beq_iff_eq] at hop
    refine ⟨h1, h2, h3, h4, h5, ?_, ?_⟩
    · intro c' hc'
      cases hc'
      exact hop.1
    · intro o' ho'
      cases ho'
      exact hop.2
  | limitOp n => exact ⟨h1, h2, h3, h4, h5, h6, h7⟩
  | offsetOp n => exact ⟨h1, h2, h3, h4, h5, h6, h7⟩

theorem applyChain_clean (m : Model) (ops : List Op)
    (hcl : ops.all Op.cleanB = true) (hq : QueryClean m.query) :
    QueryClean (Model.applyChain m ops).query := by
  induction ops generalizing m with
  | nil => simpa [Model.applyChain] using hq
  | cons op ops ih =>
    simp only [List.all_cons, Bool.and_eq_true] at hcl
    simpa [Model.applyChain] using
      ih (Model.applyOp m op) hcl.2 (applyOp_clean m op hcl.1 hq)

/-- C1 counterexample: the select chain `select().search({name:"x"})` generates a
SQL string with one `?` placeholder (`users.name LIKE ?`) but passes an empty
parameter list — the search branch never appends `Object.values(search)` to
`query.values`, so the claimed placeholder/parameter correspondence fails on
chains that add search (LIKE) conditions. -/
theorem c1_search_placeholder_unbound :
    countQMarks (((Model.make "users").select ["*"]).search [("name", "x")]).executedCall.1 = 1
    ∧ (((Model.make "users").select ["*"]).search [("name", "x")]).executedCall.2 = [] := by
  decide

/-- C1 amended: for every search-free select chain and every search-free update
chain (with `?`-free identifiers), the parameter list handed to `executeQuery`
has exactly one entry per `?` placeholder of the generated SQL, and it is exactly
the equality-clause values followed by the whereIn values (after the update
payload values), i.e. parameters appear in clause order.  Chains that add
`search(...)` break the correspondence: their LIKE placeholders are never bound. -/
theorem c1_no_search_params_match_placeholders
    (t : String) (cols : List String) (data : List (String × String)) (ops1 ops2 : List Op)
    (ht : countQMarks t = 0) (hcols : ∀ c ∈ cols, countQMarks c = 0)
    (hdata : ∀ p ∈ data, countQMarks p.1 = 0)
    (hns1 : ops1.all Op.noSearch = true) (hcl1 : ops1.all Op.cleanB = true)
    (hns2 : ops2.all Op.noSearch = true) (hcl2 : ops2.all Op.cleanB = true) :
    (countQMarks (Model.applyChain ((Model.make t).select cols) ops1).executedCall.1
       = (Model.applyChain ((Model.make t).select cols) ops1).executedCall.2.length
     ∧ (Model.applyChain ((Model.make t).select cols) ops1).executedCall.2
       = whereEqVals (Model.applyChain ((Model.make t).select cols) ops1).query.whereEq
         ++ whereInVals (Model.applyChain ((Model.make t).select cols) ops1).query.whereIn)
    ∧ (countQMarks (Model.applyChain ((Model.make t).update data) ops2).executedCall.1
       = (Model.applyChain ((Model.make t).update data) ops2).executedCall.2.length
     ∧ (Model.applyChain ((Model.make t).update data) ops2).executedCall.2
       = data.map (fun p => JVal.scalar p.2)
         ++ whereEqVals (Model.applyChain ((Model.make t).update data) ops2).query.whereEq
         ++ whereInVals (Model.applyChain ((Model.make t).update data) ops2).query.whereIn) := by
  constructor
  · set M := Model.applyChain ((Model.make t).select cols) ops1 with hMdef
    obtain ⟨hTn, hSql, hTy, hVals, hCols, hSr⟩ :=
      applyChain_fixed ((Model.make t).select cols) ops1 hns1
    have hTn' : M.tableName = t := hTn
    have hSql' : M.sql = "" := hSql
    have hTy' : M.query.type = some QueryType.select := hTy
    have hVals' : M.query.values = [] := hVals
    have hSr' : M.query.search = [] := hSr
    have hq0 : QueryClean ((Model.make t).select cols).query := by
      refine ⟨?_, ?_, ?_, ?_, ?_, ?_, ?_⟩
      · intro s hs
        have hs' : s = jsJoin ", " (cols.map (fun c => t ++ "." ++ c)) := by
          simpa [Model.make, Model.select, emptyQuery] using hs
        subst hs'
        exact countQMarks_qualified t cols ht hcols
      · intro p hp; simp [Model.make, Model.select, emptyQuery] at hp
      · intro w hw; simp [Model.make, Model.select, emptyQuery] at hw
      · intro j hj; simp [Model.make, Model.select, emptyQuery] at hj
      · intro p hp; simp [Model.make, Model.select, emptyQuery] at hp
      · intro c hc; simp [Model.make, Model.select, emptyQuery] at hc
      · intro o ho; simp [Model.make, Model.select, emptyQuery] at ho
    obtain ⟨hc1, hc2, hc3, hc4, hc5, hc6, hc7⟩ :=
      applyChain_clean ((Model.make t).select cols) ops1 hcl1 hq0
    have happ := prepare_select_counts M.tableName M.sql M.query.select M.query.columns
      M.query.values M.query.whereEq M.query.whereIn M.query.joins M.query.search
      M.query.limit M.query.offset M.query.orderBy M.query.order
      (by rw [hTn']; exact ht) hc1 hc2 hc3 hc4 hc5 hc6 hc7
    have hMeta : (⟨M.tableName, M.sql,
        ⟨some QueryType.select, M.query.select, M.query.columns, M.query.values,
         M.query.whereEq, M.query.whereIn, M.query.joins, M.query.search,
         M.query.limit, M.query.offset, M.query.orderBy, M.query.order⟩⟩ : Model) = M := by
      rw [← hTy']
    rw [hMeta] at happ
    obtain ⟨happ1, happ2⟩ := happ
    rw [hVals'] at happ2
    rw [hSr'] at happ1
    simp only [List.nil_append] at happ2
    simp only [List.length_nil, Nat.add_zero] at happ1
    simp only [Model.executedCall]
    refine ⟨?_, happ2⟩
    rw [happ1, happ2, List.length_append, length_whereEqVals, length_whereInVals]
  · set M := Model.applyChain ((Model.make t).update data) ops2 with hMdef
    obtain ⟨hTn, hSql, hTy, hVals, hCols, hSr⟩ :=
      applyChain_fixed ((Model.make t).update data) ops2 hns2
    have hTn' : M.tableName = t := hTn
    have hSql' : M.sql = "" := hSql
    have hTy' : M.query.type = some QueryType.update := hTy
    have hVals' : M.query.values = data.map (fun p => JVal.scalar p.2) := hVals
    have hCols' : M.query.columns = data.map Prod.fst := hCols
    have hq0 : QueryClean ((Model.make t).update data).query := by
      refine ⟨?_, ?_, ?_, ?_, ?_, ?_, ?_⟩
      · intro s hs; simp [Model.make, Model.update, emptyQuery] at hs
      · intro p hp; simp [Model.make, Model.update, emptyQuery] at hp
      · intro w hw; simp [Model.make, Model.update, emptyQuery] at hw
      · intro j hj; simp [Model.make, Model.update, emptyQuery] at hj
      · intro p hp; simp [Model.make, Model.update, emptyQuery] at hp
      · intro c hc; simp [Model.make, Model.update, emptyQuery] at hc
      · intro o ho; simp [Model.make, Model.update, emptyQuery] at ho
    obtain ⟨hc1, hc2, hc3, hc4, hc5, hc6, hc7⟩ :=
      applyChain_clean ((Model.make t).update data) ops2 hcl2 hq0
    have hcolsClean : ∀ c ∈ M.query.columns, countQMarks c = 0 := by
      intro c hc
      rw [hCols'] at hc
      obtain ⟨p, hp, rfl⟩ := List.mem_map.1 hc
      exact hdata p hp
    have hsqlClean : countQMarks M.sql = 0 := by
      rw [hSql']; decide
    have happ := prepare_update_counts M.tableName M.sql M.query.select M.query.columns
      M.query.values M.query.whereEq M.query.whereIn M.query.joins M.query.search
      M.query.limit M.query.offset M.query.orderBy M.query.order
      hsqlClean (by rw [hTn']; exact ht) hcolsClean hc2 hc3
    have hMeta : (⟨M.tableName, M.sql,
        ⟨some QueryType.update, M.query.select, M.query.columns, M.query.values,
         M.query.whereEq, M.query.whereIn, M.query.joins, M.query.search,
         M.query.limit, M.query.offset, M.query.orderBy, M.query.order⟩⟩ : Model) = M := by
      rw [← hTy']
    rw [hMeta] at happ
    obtain ⟨happ1, happ2⟩ := happ
    rw [hVals'] at happ2
    simp only [Model.executedCall]
    refine ⟨?_, happ2⟩
    rw [happ1, happ2, List.length_append, List.length_append, List.length_map,
       length_whereEqVals, length_whereInVals, hCols', List.length_map]

/-- C1 witness: the amended statement instantiated at table `users` with a
where + whereIn + limit select chain and a one-column update chain. -/
theorem c1_no_search_params_match_placeholders_witness :
    ([Op.whereOp [("username", "a")], Op.whereInOp "id" ["1", "2"], Op.limitOp 5].all
        Op.noSearch = true)
    ∧ countQMarks (Model.applyChain ((Model.make "users").select ["*"])
          [Op.whereOp [("username", "a")], Op.whereInOp "id" ["1", "2"], Op.limitOp 5]).executedCall.1
        = (Model.applyChain ((Model.make "users").select ["*"])
          [Op.whereOp [("username", "a")], Op.whereInOp "id" ["1", "2"], Op.limitOp 5]).executedCall.2.length :=
  ⟨by decide,
   (c1_no_search_params_match_placeholders "users" ["*"] [("status", "x")]
      [Op.whereOp [("username", "a")], Op.whereInOp "id" ["1", "2"], Op.limitOp 5]
      [Op.whereOp [("id", "9")]]
      (by decide) (by decide) (by decide) (by decide) (by decide) (by decide) (by decide)).1.1⟩

theorem objInsert_length_pos (m : List (String × String)) (kv : String × String) :
    0 < (objInsert m kv).length := by
  unfold objInsert
  split
  · next hany =>
    rw [List.length_map]
    rcases m with _ | ⟨x, xs⟩
    · simp at hany
    · simp
  · simp

theorem objMerge_length_pos (a b : List (String × String)) (h : 0 < a.length ∨ b ≠ []) :
    0 < (objMerge a b).length := by
  induction b generalizing a with
  | nil =>
    rcases h with h | h
    · simpa [objMerge] using h
    · exact absurd rfl h
  | cons x xs ih =>
    have : objMerge a (x :: xs) = objMerge (objInsert a x) xs := by simp [objMerge]
    rw [this]
    exact ih (objInsert a x) (Or.inl (objInsert_length_pos a x))

/-- C6 counterexample: two `whereIn` calls on the same chain are joined by a
comma — the JS code appends the mapped predicate array to the SQL string
without `.join(' AND ')`, so Array-to-string coercion inserts `,` — not by
`AND` as the claim states. -/
theorem c6_two_wherein_comma_joined :
    (((Model.make "users").select ["*"]).whereIn "a" ["1"] |>.whereIn "b" ["2"]).executedCall
      = ("SELECT users.* FROM users WHERE a IN (?),b IN (?);",
         [JVal.scalar "1", JVal.scalar "2"])
    ∧ "SELECT users.* FROM users WHERE a IN (?),b IN (?);"
      ≠ "SELECT users.* FROM users WHERE a IN (?) AND b IN (?);" := by
  decide

/-- C6 amended: every `whereIn(column, values)` contributes a predicate
`column IN (?, ..., ?)` with one placeholder per value, and the whereIn group as
a whole is combined with a non-empty equality group by `AND`; but two whereIn
predicates are joined with a comma (JS array-to-string), not with `AND`. -/
theorem c6_amended_wherein_combination
    (t c1 c2 : String) (v1 v2 : List String) (eq1 : List (String × String))
    (h : eq1 ≠ []) :
    countQMarks (c1 ++ " IN (" ++ qMarks v1 ++ ")") = v1.length + countQMarks c1
    ∧ whereInSql [(c1, v1), (c2, v2)]
      = (c1 ++ " IN (" ++ qMarks v1 ++ ")") ++ "," ++ (c2 ++ " IN (" ++ qMarks v2 ++ ")")
    ∧ (((Model.make t).select ["*"]).where_ eq1 |>.whereIn c1 v1 |>.whereIn c2 v2).executedCall.1
      = "SELECT " ++ (t ++ "." ++ "*") ++ " FROM " ++ t ++ " WHERE "
          ++ whereEqSql t (objMerge [] eq1) ++ " AND " ++ whereInSql [(c1, v1), (c2, v2)] ++ ";" := by
  refine ⟨?_, ?_, ?_⟩
  · rw [countQMarks_append, countQMarks_append, countQMarks_append, countQMarks_qMarks]
    have h1 : countQMarks " IN (" = 0 := by decide
    have h2 : countQMarks ")" = 0 := by decide
    omega
  · simp [whereInSql, jsJoin]
  · have hpos : 0 < (objMerge [] eq1).length := objMerge_length_pos [] eq1 (Or.inr h)
    simp only [Model.executedCall, Model.make, Model.select, Model.where_, Model.whereIn,
      Model.prepareSelectQueryString, emptyQuery, List.nil_append, List.length_nil,
      List.length_cons, jsJoin, List.map_cons, List.map_nil]
    simp [hpos, optStrSuffix, optNumSuffix, String.append_assoc]

/-- C2: the chain `select().where(username/auth_token).limit(1).execute()`
on a Model for table `users` generates exactly
`SELECT users.* FROM users WHERE users.username = ? AND users.auth_token = ? LIMIT 1;`
and passes exactly the parameter list `["a","b"]` to `executeQuery`. -/
theorem c2_login_chain_sql_and_params :
    (((Model.make "users").select ["*"]).where_
        [("username", "a"), ("auth_token", "b")] |>.limit 1).executedCall
      = ("SELECT users.* FROM users WHERE users.username = ? AND users.auth_token = ? LIMIT 1;",
         [JVal.scalar "a", JVal.scalar "b"]) := by
  decide

/-- C3: evaluating `insert` at two rows sharing the key set (username, email)
(N = 2, C = 2).  The source never flattens the per-row value arrays
(`values = data.map(item => Object.values(item))`), so the reduce chunks whole
rows by `columns.length` and emits one parenthesized group whose two string
literals are the comma-joined rows — not the N = 2 tuples of length C = 2 the
claim describes (tuples are also joined by `''`, not `','`). -/
theorem c3_insert_two_rows_evaluation :
    ((Model.make "users").insertRows
        [[("username", "a"), ("email", "b")], [("username", "c"), ("email", "d")]]).executedCall
      = ("INSERT INTO users (username, email) VALUES (\x27a,b\x27,\x27c,d\x27);",
         [JVal.arr ["a", "b"], JVal.arr ["c", "d"]]) := by
  decide

/-- C5: a successful `execute()` ends with `_resetQuery`, so the descriptor is the
default empty state; a second `execute()` with no new chained calls prepares the
no-op statement ";" with an empty parameter list — no clause or parameter of the
first query survives. -/
theorem c5_execute_resets_descriptor (m : Model) :
    m.executeState.query = emptyQuery ∧ m.executeState.sql = "" ∧
    m.executeState.executedCall = (";", []) ∧
    countQMarks m.executeState.executedCall.1 = 0 :=
  ⟨rfl, rfl, rfl, rfl⟩

/-- C6 witness: the amended statement instantiated at a users chain with one
equality predicate and two whereIn predicates. -/
theorem c6_amended_wherein_combination_witness :
    ([("x", "1")] : List (String × String)) ≠ []
    ∧ (((Model.make "users").select ["*"]).where_ [("x", "1")]
          |>.whereIn "a" ["1"] |>.whereIn "b" ["2"]).executedCall.1
      = "SELECT " ++ ("users" ++ "." ++ "*") ++ " FROM " ++ "users" ++ " WHERE "
          ++ whereEqSql "users" (objMerge [] [("x", "1")]) ++ " AND "
          ++ whereInSql [("a", ["1"]), ("b", ["2"])] ++ ";" :=
  ⟨by decide,
   (c6_amended_wherein_combination "users" "a" "b" ["1"] ["2"] [("x", "1")] (by decide)).2.2⟩

/-
  DatabaseManager (src/src/managers/database.js, the pool variant of lines
  13-147) and the request middleware of RouteManager (src/src/managers/route.js,
  lines 39-104).  Connections are identified by the Nat id the pool hands out;
  thrown JS errors are their message strings; the logger's info/error calls are
  collected as a list.  External behavior (whether the pool yields a connection,
  what the driver returns) is passed in as explicit arguments.
-/

/-- Whether the first list is an initial segment of the second. -/
def startsWithChars : List Char → List Char → Bool
  | [], _ => true
  | _ :: _, [] => false
  | a :: as, b :: bs => a = b && startsWithChars as bs

/-- Whether the needle occurs as a contiguous substring of the haystack. -/
def occursIn (needle : List Char) : List Char → Bool
  | [] => startsWithChars needle []
  | l@(_ :: rest) => startsWithChars needle l || occursIn needle rest

/-- One logger line: `this.#logger.info(requestId, msg)` or `.error(requestId, msg)`. -/
inductive LogEntry where
  | info (reqId msg : String)
  | error (reqId msg : String)
deriving DecidableEq, Repr

/-- A thrown JS Error, identified by its message. -/
structure JSError where
  msg : String
deriving DecidableEq, Repr

/-- The mutable fields of a DatabaseManager instance: `#pool` (whether the pool
was created), `#connection`, and `_currentRequestId`. -/
structure DBState where
  pool : Bool
  connection : Option Nat
  currentRequestId : Option String
deriving DecidableEq, Repr

/-- Database events observable from the connection pool's point of view. -/
inductive Event where
  | poolAcquire (connId : Nat)
  | beginTx (connId : Nat)
  | rollback (connId : Nat)
  | release (connId : Nat)
  | respond (status : Nat)
deriving DecidableEq, Repr

instance exceptDecEq {ε α : Type} [DecidableEq ε] [DecidableEq α] :
    DecidableEq (Except ε α) := fun x y =>
  match x, y with
  | .ok a, .ok b =>
    if h : a = b then isTrue (h ▸ rfl) else isFalse (fun hc => h (Except.ok.inj hc))
  | .error a, .error b =>
    if h : a = b then isTrue (h ▸ rfl) else isFalse (fun hc => h (Except.error.inj hc))
  | .ok _, .error _ => isFalse (fun hc => Except.noConfusion hc)
  | .error _, .ok _ => isFalse (fun hc => Except.noConfusion hc)

/-- Result of a call to `acquireConnection`: the updated manager state, the log
lines written, the pool events, and the outcome — `.error` when the method
throws, `.ok v` when it returns the value `v` to the caller. -/
structure AcquireResult where
  state : DBState
  logs : List LogEntry
  events : List Event
  outcome : Except JSError (Option Nat)
deriving DecidableEq, Repr

/-- `DatabaseManager.acquireConnection(requestId)` (lines 58-70).
`requestId = none` models a missing/falsy argument: the method throws before the
try block.  Otherwise `_currentRequestId` is set and the try block runs: a
missing pool or a pool failure is caught and only logged; on success
`#connection` is set (and `verifyConnection` is fired without await — it never
affects the state or outcome).  In every non-throwing branch the outcome is
`.ok none`: the source has no return statement, so the caller always receives
undefined, despite the doc comment `@returns {Connection}`. -/
def DatabaseManager.acquireConnection (st : DBState) (requestId : Option String)
    (poolYields : Bool) (newConnId : Nat) : AcquireResult :=
  match requestId with
  | none => ⟨st, [], [], .error ⟨"Requesting for connection without request id."⟩⟩
  | some rid =>
    let st1 := { st with currentRequestId := some rid }
    let log1 := LogEntry.info rid "Acquiring connection to the database server..."
    if st1.pool = false then
      ⟨st1, [log1, .error rid "Can\x27t connect to the database server. Error: Pool is not defined."],
       [], .ok none⟩
    else if poolYields then
      ⟨{ st1 with connection := some newConnId },
       [log1, .info rid "Connection to the database sever created successfully."],
       [Event.poolAcquire newConnId], .ok none⟩
    else
      ⟨st1, [log1, .error rid "Can\x27t connect to the database server. Error: pool exhausted."],
       [], .ok none⟩

/-- JSON.stringify of an array of strings (no escaping inside the values, which
none of the claims need). -/
def jsonStringifyStrings (vals : List String) : String :=
  "[" ++ jsJoin "," (vals.map (fun v => "\"" ++ v ++ "\"")) ++ "]"

/-- The catch-block log line of `executeQuery` (line 84): request id, the SQL,
the JSON-encoded parameter values, and the caught error's message. -/
def execErrorLog (st : DBState) (sql : String) (vals : List String) (errMsg : String) : LogEntry :=
  .error (st.currentRequestId.getD "UNKNOWN-REQUEST-ID")
    ("Unable to execute sql query. Query: " ++ sql ++ " with Values: "
      ++ jsonStringifyStrings vals ++ " | Error: " ++ errMsg ++ ".")

/-- Result of a call to `executeQuery`: state, logs, and outcome (`.ok rows` or
the rethrown error). -/
structure ExecResult where
  state : DBState
  logs : List LogEntry
  outcome : Except JSError (List String)
deriving DecidableEq, Repr

/-- `DatabaseManager.executeQuery(sql, placeholderValues)` (lines 79-87): if no
connection is held it first re-acquires one via
`acquireConnection(this._currentRequestId || "UNKNOWN-REQUEST-ID")` (which never
throws, the argument being non-falsy); then forwards to the driver.  Any caught
error — the driver's, or the TypeError from calling `.execute` on an undefined
connection — is logged together with the SQL and values and rethrown unchanged. -/
def DatabaseManager.executeQuery (st : DBState) (sql : String) (vals : List String)
    (poolYields : Bool) (newConnId : Nat) (driver : Except String (List String)) : ExecResult :=
  let acq := match st.connection with
    | none => DatabaseManager.acquireConnection st
        (some (st.currentRequestId.getD "UNKNOWN-REQUEST-ID")) poolYields newConnId
    | some _ => ⟨st, [], [], .ok none⟩
  let st1 := acq.state
  match st1.connection with
  | none =>
    let te := "Cannot read properties of undefined (reading \x27execute\x27)"
    ⟨st1, acq.logs ++ [execErrorLog st1 sql vals te], .error ⟨te⟩⟩
  | some _ =>
    match driver with
    | .ok rows => ⟨st1, acq.logs, .ok rows⟩
    | .error msg => ⟨st1, acq.logs ++ [execErrorLog st1 sql vals msg], .error ⟨msg⟩⟩

/-- HTTP response envelope sent by the error / not-found middleware. -/
structure HttpResponse where
  status : Nat
  errorFlag : Bool
  message : String
deriving DecidableEq, Repr

/-- `RouteManager.#setErrorHandlingRoute` (lines 93-104): rolls back only when
`req.__databaseConnection` is truthy, and always responds
`500 {error: true, message: err.message}`.  The environment argument is there
because the claim quantifies over environments: the source never reads any
environment, so the response is the same in production and development.
Returns (rollbackIssued, response). -/
def RouteManager.errorHandlingRoute (hasConn : Bool) (err : JSError) (_env : String) :
    Bool × HttpResponse :=
  (hasConn, { status := 500, errorFlag := true, message := err.msg })

/-- The per-request middleware of `RouteManager.#setEssentialRoutes` (lines
41-66) composed with the error middleware, as the list of events of one request:
assign the id, call `acquireConnection`, store its return value in
`req.__databaseConnection`, `beginTransaction()` on it, register the
finish-handler (which releases if `req.__databaseConnection` is truthy), run the
handler, and on any error go to the error middleware.  Because
`acquireConnection` returns undefined, `beginTransaction` throws a TypeError and
`return next(error)` runs before the finish-handler is registered. -/
def RouteManager.requestEvents (poolYields : Bool) (reqId : String) (connId : Nat)
    (handlerOk : Bool) : List Event :=
  let st0 : DBState := { pool := true, connection := none, currentRequestId := none }
  let acq := DatabaseManager.acquireConnection st0 (some reqId) poolYields connId
  match acq.outcome with
  | .error _ => acq.events ++ [Event.respond 500]
  | .ok ret =>
    match ret with
    | none => acq.events ++ [Event.respond 500]
    | some c =>
      acq.events ++ [Event.beginTx c]
        ++ (if handlerOk then [Event.respond 200]
            else [Event.rollback c, Event.respond 500])
        ++ [Event.release c]

/-- Number of connections handed out by the pool in a trace. -/
def countAcquires (evs : List Event) : Nat :=
  evs.countP (fun e => match e with | .poolAcquire _ => true | _ => false)

/-- Number of releases in a trace. -/
def countReleases (evs : List Event) : Nat :=
  evs.countP (fun e => match e with | .release _ => true | _ => false)

/-- Number of rollbacks in a trace. -/
def countRollbacks (evs : List Event) : Nat :=
  evs.countP (fun e => match e with | .rollback _ => true | _ => false)

/-- C4: on every request where the pool yields a connection, the pipeline
acquires one pool connection and releases none: `acquireConnection` stores the
connection in the manager but returns undefined (no return statement, against
its own `@returns {Connection}` doc), so `beginTransaction` on the undefined
`req.__databaseConnection` throws, `next(error)` runs before the finish-release
handler is registered, and the error middleware finds no connection to clean up.
Acquire-count 1, release-count 0: the claimed balance fails and the connection
leaks. -/
theorem c4_connection_leaked_every_request (reqId : String) (connId : Nat) (handlerOk : Bool) :
    RouteManager.requestEvents true reqId connId handlerOk
        = [Event.poolAcquire connId, Event.respond 500]
    ∧ countAcquires (RouteManager.requestEvents true reqId connId handlerOk) = 1
    ∧ countReleases (RouteManager.requestEvents true reqId connId handlerOk) = 0 :=
  ⟨rfl, rfl, rfl⟩

/-- C7 counterexample: with a connection held and the driver failing, the error
`executeQuery` propagates is the driver's error object unchanged — a message
equal to the driver's message, with no QueryError wrapper and no SQL or
parameters in it (they only reach the log). -/
theorem c7_driver_error_rethrown_unwrapped :
    (DatabaseManager.executeQuery ⟨true, some 3, some "r1"⟩ "INSERT INTO users (a) VALUES (?)"
        ["a"] true 9 (.error "Duplicate entry")).outcome
      = .error ⟨"Duplicate entry"⟩
    ∧ occursIn ("INSERT INTO users (a) VALUES (?)").data ("Duplicate entry").data = false := by
  decide

/-- C7 amended: `executeQuery` transparently re-acquires a connection when none
is held (and forwards the query to the driver on the fresh pool connection);
when the driver fails it writes a log line containing the SQL and the
JSON-encoded parameters, but the error it fails with is the driver's original
error rethrown unchanged — not a QueryError wrapping message, SQL and
parameters. -/
theorem c7_amended_reacquire_and_log_only
    (rid sql : String) (vals : List String) (cid c0 : Nat)
    (rows : List String) (msg : String) :
    (DatabaseManager.executeQuery ⟨true, none, some rid⟩ sql vals true cid (.ok rows)).outcome
      = .ok rows
    ∧ (DatabaseManager.executeQuery ⟨true, none, some rid⟩ sql vals true cid (.ok rows)).state.connection
      = some cid
    ∧ (DatabaseManager.executeQuery ⟨true, some c0, some rid⟩ sql vals true cid (.error msg)).outcome
      = .error ⟨msg⟩
    ∧ (DatabaseManager.executeQuery ⟨true, some c0, some rid⟩ sql vals true cid (.error msg)).logs
      = [execErrorLog ⟨true, some c0, some rid⟩ sql vals msg] :=
  ⟨rfl, rfl, rfl, rfl⟩

/-- C8 counterexample: with a request id supplied and the pool unable to yield a
connection, `acquireConnection` catches the pool error inside its try block,
logs it and returns normally (undefined): the caller observes no error at all. -/
theorem c8_pool_failure_swallowed :
    (DatabaseManager.acquireConnection ⟨true, none, none⟩ (some "req-1") false 0).outcome
      = .ok none := by
  decide

/-- C8 amended: `acquireConnection` throws an Error (message "Requesting for
connection without request id.") exactly when no request id is supplied; when
the pool cannot yield a connection the error is caught and logged, the method
returns undefined with `#connection` unchanged, and the caller proceeds without
observing any error. -/
theorem c8_amended_acquire_error_behavior (st : DBState) (rid : String) (cid : Nat) (p : Bool) :
    (DatabaseManager.acquireConnection st none p cid).outcome
      = .error ⟨"Requesting for connection without request id."⟩
    ∧ (DatabaseManager.acquireConnection ⟨true, st.connection, st.currentRequestId⟩
          (some rid) false cid).outcome = .ok none
    ∧ (DatabaseManager.acquireConnection ⟨true, st.connection, st.currentRequestId⟩
          (some rid) false cid).state.connection = st.connection :=
  ⟨rfl, rfl, rfl⟩

/-- C9 counterexample: in the production environment the error middleware
responds with the thrown error's own message, not a generic one (and with no
connection on the request it issues no rollback): the cited handler has no
environment gating at all. -/
theorem c9_production_message_not_generic :
    RouteManager.errorHandlingRoute false ⟨"Duplicate entry for key users.email"⟩ "production"
      = (false, ⟨500, true, "Duplicate entry for key users.email"⟩)
    ∧ "Duplicate entry for key users.email" ≠ "Internal Server Error" := by
  decide

/-- C9 amended: whenever a handler or middleware step throws, the centralized
error middleware responds 500 with envelope `{error: true, message}` where the
message is the thrown error's message in every environment (no production
gating), and it rolls back only when `req.__databaseConnection` is truthy — which
never happens in the assembled pipeline, whose traces contain no rollback event,
since `acquireConnection` returns undefined. -/
theorem c9_amended_error_response (hasConn : Bool) (msg env reqId : String) (cid : Nat)
    (handlerOk : Bool) :
    RouteManager.errorHandlingRoute hasConn ⟨msg⟩ env = (hasConn, ⟨500, true, msg⟩)
    ∧ countRollbacks (RouteManager.requestEvents true reqId cid handlerOk) = 0 :=
  ⟨rfl, rfl⟩

/-
  ConfigManager (src/src/entities/configManager.js): JSON configuration values,
  the `allowedKeys` schema, `validateConfig` (lines 73-91) and `getConfig`
  (lines 100-109).
-/

/-- A JSON value as loaded from the config file.  Objects keep insertion order. -/
inductive JValue where
  | str (s : String)
  | num (n : Int)
  | bool (b : Bool)
  | obj (entries : List (String × JValue))
  | arr (xs : List JValue)
deriving Repr

/-- A node of the `allowedKeys` schema: either an expected `typeof` string or a
nested object of allowed keys. -/
inductive CSchema where
  | prim (ty : String)
  | node (entries : List (String × CSchema))
deriving Repr

/-- `Array.isArray(v) ? 'array' : typeof v` as computed on line 83. -/
def jsTypeOf : JValue → String
  | .str _ => "string"
  | .num _ => "number"
  | .bool _ => "boolean"
  | .obj _ => "object"
  | .arr _ => "array"

/-- First-match lookup of an own property in an insertion-ordered object. -/
def jsLookup {α : Type} (key : String) : List (String × α) → Option α
  | [] => none
  | (k, v) :: rest => if k = key then some v else jsLookup key rest

mutual

/-- One key of `validateConfig` (lines 77-89): unknown keys fail; an
object-schema against an object value recurses; an object-schema against a
non-object (or array) value fails; a `typeof` name must match exactly. -/
def validateValue : CSchema → JValue → Bool
  | .node sub, .obj entries => validateObj sub entries
  | .node _, _ => false
  | .prim ty, v => jsTypeOf v == ty

/-- The `for (const key in config)` loop of `validateConfig`: true iff no key
throws. -/
def validateObj (allowed : List (String × CSchema)) : List (String × JValue) → Bool
  | [] => true
  | (k, v) :: rest =>
    (match jsLookup k allowed with
     | none => false
     | some sch => validateValue sch v) && validateObj allowed rest

end

/-- `ConfigManager.validateConfig(this.#config, this.allowedKeys)` at startup. -/
def ConfigManager.validateConfig (config : List (String × JValue))
    (allowed : List (String × CSchema)) : Bool :=
  validateObj allowed config

/-- The `allowedKeys` schema object built in the constructor (lines 26-46). -/
def allowedKeys : List (String × CSchema) :=
  [("env", .prim "string"),
   ("local", .node
     [("host", .prim "string"), ("url", .prim "string"), ("port", .prim "number"),
      ("database", .node
        [("host", .prim "string"), ("user", .prim "string"), ("password", .prim "string"),
         ("database", .prim "string"), ("port", .prim "number"),
         ("waitForConnections", .prim "boolean"), ("connectionLimit", .prim "number"),
         ("queueLimit", .prim "number")]),
      ("log", .node [("directory", .prim "string")])])]

/-- `String.prototype.toLowerCase` on one ASCII character. -/
def jsCharToLower (c : Char) : Char :=
  if 'A' ≤ c ∧ c ≤ 'Z' then Char.ofNat (c.toNat + 32) else c

/-- `keyPath.split('.').map(e => e.toLowerCase())`, the lowercasing part. -/
def jsToLower (s : String) : String :=
  String.mk (s.data.map jsCharToLower)

/-- The string contains at least one uppercase ASCII letter. -/
def hasUpperAscii (s : String) : Bool :=
  s.data.any (fun c => 'A' ≤ c && c ≤ 'Z')

/-- `keyPath.split('.')` (JS String.split with a one-character separator). -/
def splitOnCharAux (sep : Char) : List Char → List Char → List String
  | [], acc => [String.mk acc.reverse]
  | c :: rest, acc =>
    if c = sep then String.mk acc.reverse :: splitOnCharAux sep rest []
    else splitOnCharAux sep rest (c :: acc)

/-- `keyPath.split('.')`. -/
def jsSplitDot (s : String) : List String :=
  splitOnCharAux '.' s.data []

/-- One step of the lookup loop (lines 104-107):
`result && result.hasOwnProperty(key)` then `result = result[key]`, otherwise
throw (`none`).  Non-object results fail the guard or the own-property test
(string boxing's index/length properties are not modelled; no dotted path in the
repository uses them). -/
def jsGetProp : JValue → String → Option JValue
  | .obj entries, key => jsLookup key entries
  | _, _ => none

/-- The whole `for (const key of keys)` loop, `none` propagating as a throw. -/
def getConfigKeys (start : Option JValue) (keys : List String) : Option JValue :=
  keys.foldl (fun acc key => acc.bind (fun v => jsGetProp v key)) start

/-- `this.#config[this.#config['env']]` (lines 101, 103): the active environment
block; undefined when `env` is missing or not a string key of the config. -/
def envBlockOf (config : List (String × JValue)) : Option JValue :=
  match jsLookup "env" config with
  | some (.str e) => jsLookup e config
  | _ => none

/-- `ConfigManager.getConfig(keyPath)` (lines 100-109): the empty (falsy) path
returns the whole environment block; otherwise every dot-separated segment is
lowercased and looked up in turn, throwing (`none`) at the first miss. -/
def ConfigManager.getConfig (config : List (String × JValue)) (keyPath : String) :
    Option JValue :=
  if keyPath = "" then envBlockOf config
  else getConfigKeys (envBlockOf config) ((jsSplitDot keyPath).map jsToLower)

mutual

/-- All sub-schemas of a schema tree (the tree itself included). -/
def subSchemas : CSchema → List CSchema
  | .prim ty => [.prim ty]
  | .node entries => .node entries :: subSchemasOfEntries entries

/-- All sub-schemas of the schemas in an entries list. -/
def subSchemasOfEntries : List (String × CSchema) → List CSchema
  | [] => []
  | (_, s) :: rest => subSchemas s ++ subSchemasOfEntries rest

end

theorem jsLookup_mem {α : Type} (key : String) (l : List (String × α)) (v : α)
    (h : jsLookup key l = some v) : (key, v) ∈ l := by
  induction l with
  | nil => simp [jsLookup] at h
  | cons e rest ih =>
    obtain ⟨k0, v0⟩ := e
    simp only [jsLookup] at h
    split at h
    · next heq =>
      injection h with hv
      subst hv
      subst heq
      exact List.mem_cons_self _ _
    · exact List.mem_cons_of_mem _ (ih h)

theorem validateObj_lookup (allowed : List (String × CSchema)) (m : List (String × JValue))
    (hval : validateObj allowed m = true) (k : String) (v : JValue)
    (hk : jsLookup k m = some v) :
    ∃ sch, jsLookup k allowed = some sch ∧ validateValue sch v = true := by
  induction m with
  | nil => simp [jsLookup] at hk
  | cons e rest ih =>
    obtain ⟨k0, v0⟩ := e
    simp only [validateObj, Bool.and_eq_true] at hval
    obtain ⟨h1, h2⟩ := hval
    simp only [jsLookup] at hk
    split at hk
    · next heq =>
      injection hk with hv
      subst hv
      subst heq
      rcases hl : jsLookup k0 allowed with _ | sch
      · rw [hl] at h1
        simp at h1
      · rw [hl] at h1
        exact ⟨sch, rfl, h1⟩
    · exact ih h2 hk

theorem self_mem_subSchemas (s : CSchema) : s ∈ subSchemas s := by
  cases s <;> simp [subSchemas]

theorem entry_mem_subSchemasOfEntries (entries : List (String × CSchema)) (k : String)
    (sch : CSchema) (h : (k, sch) ∈ entries) : sch ∈ subSchemasOfEntries entries := by
  induction entries with
  | nil => cases h
  | cons e rest ih =>
    obtain ⟨k0, s0⟩ := e
    rcases List.mem_cons.1 h with h1 | h1
    · injection h1 with hk hs
      subst hs
      simp only [subSchemasOfEntries]
      exact List.mem_append_left _ (self_mem_subSchemas sch)
    · simp only [subSchemasOfEntries]
      exact List.mem_append_right _ (ih h1)

mutual

theorem subSchemas_trans (s a b : CSchema) (hab : a ∈ subSchemas b)
    (hb : b ∈ subSchemas s) : a ∈ subSchemas s := by
  cases s with
  | prim ty =>
    simp [subSchemas] at hb
    subst hb
    simpa [subSchemas] using hab
  | node entries =>
    simp only [subSchemas, List.mem_cons] at hb
    rcases hb with hb | hb
    · subst hb
      exact hab
    · simp only [subSchemas, List.mem_cons]
      exact Or.inr (subSchemasOfEntries_trans entries a b hab hb)

theorem subSchemasOfEntries_trans (entries : List (String × CSchema)) (a b : CSchema)
    (hab : a ∈ subSchemas b) (hb : b ∈ subSchemasOfEntries entries) :
    a ∈ subSchemasOfEntries entries := by
  match entries with
  | [] => simp [subSchemasOfEntries] at hb
  | (k0, s0) :: rest =>
    simp only [subSchemasOfEntries, List.mem_append] at hb
    rcases hb with hb | hb
    · exact List.mem_append_left _ (subSchemas_trans s0 a b hab hb)
    · exact List.mem_append_right _ (subSchemasOfEntries_trans rest a b hab hb)

end

/-- A value sits somewhere inside a schema-validated configuration: it validates
against some sub-schema of the `allowedKeys` tree. -/
def InvSchema (v : JValue) : Prop :=
  ∃ s ∈ subSchemas (.node allowedKeys), validateValue s v = true

/-- Every `typeof` name in the schema is string/number/boolean — in particular,
no object or array value can validate against a `prim` node. -/
theorem allowed_prims_ok :
    ((subSchemas (.node allowedKeys)).all (fun s =>
      match s with
      | .prim ty => (ty == "string") || (ty == "number") || (ty == "boolean")
      | .node _ => true)) = true := by
  decide

/-- In every object node of the schema, no key containing an uppercase ASCII
letter has its lowercased spelling also present as a key of the same node. -/
theorem allowed_no_lower_alias :
    ((subSchemas (.node allowedKeys)).all (fun s =>
      match s with
      | .prim _ => true
      | .node entries => entries.all (fun kv =>
          !(hasUpperAscii kv.1) || !(entries.any (fun kv2 => kv2.1 == jsToLower kv.1))))) = true := by
  decide

theorem validateValue_obj_node (s : CSchema) (m : List (String × JValue))
    (hs : s ∈ subSchemas (.node allowedKeys)) (hval : validateValue s (.obj m) = true) :
    ∃ sub, s = .node sub ∧ validateObj sub m = true := by
  cases s with
  | prim ty =>
    exfalso
    have hforall := List.all_eq_true.1 allowed_prims_ok _ hs
    have h' : (("object" : String) == ty) = true := hval
    have hty : "object" = ty := by simpa using h'
    subst hty
    simp at hforall
  | node sub => exact ⟨sub, rfl, hval⟩

theorem jsGetProp_inv (v v' : JValue) (key : String) (hInv : InvSchema v)
    (hstep : jsGetProp v key = some v') : InvSchema v' := by
  obtain ⟨s, hs, hval⟩ := hInv
  cases v with
  | obj m =>
    obtain ⟨sub, rfl, hvo⟩ := validateValue_obj_node s m hs hval
    obtain ⟨sch, hlook, hvv⟩ :=
      validateObj_lookup sub m hvo key v' (by simpa [jsGetProp] using hstep)
    refine ⟨sch, ?_, hvv⟩
    have h1 : sch ∈ subSchemasOfEntries sub :=
      entry_mem_subSchemasOfEntries sub key sch (jsLookup_mem key sub sch hlook)
    have h2 : sch ∈ subSchemas (.node sub) := by
      simp only [subSchemas, List.mem_cons]
      exact Or.inr h1
    exact subSchemas_trans _ sch (.node sub) h2 hs
  | str s' => simp [jsGetProp] at hstep
  | num n => simp [jsGetProp] at hstep
  | bool b => simp [jsGetProp] at hstep
  | arr xs => simp [jsGetProp] at hstep

theorem getConfigKeys_inv (start : Option JValue) (keys : List String) (v : JValue)
    (hstart : ∀ u, start = some u → InvSchema u)
    (hres : getConfigKeys start keys = some v) : InvSchema v := by
  induction keys generalizing start with
  | nil => exact hstart v (by simpa [getConfigKeys] using hres)
  | cons k ks ih =>
    have hres' : getConfigKeys (start.bind (fun u => jsGetProp u k)) ks = some v := by
      simpa [getConfigKeys] using hres
    refine ih _ ?_ hres'
    intro u' hu'
    rcases start with _ | u
    · simp at hu'
    · simp only [Option.some_bind] at hu'
      exact jsGetProp_inv u u' k (hstart u rfl) hu'

theorem envBlockOf_inv (config : List (String × JValue))
    (hval : ConfigManager.validateConfig config allowedKeys = true) (v : JValue)
    (h : envBlockOf config = some v) : InvSchema v := by
  unfold envBlockOf at h
  split at h
  · rename_i e heq
    obtain ⟨sch, hlook, hvv⟩ := validateObj_lookup allowedKeys config hval e v h
    refine ⟨sch, ?_, hvv⟩
    simp only [subSchemas, List.mem_cons]
    exact Or.inr (entry_mem_subSchemasOfEntries allowedKeys e sch
      (jsLookup_mem e allowedKeys sch hlook))
  · exact Option.noConfusion h

theorem getConfigKeys_none (keys : List String) : getConfigKeys none keys = none := by
  induction keys with
  | nil => rfl
  | cons k ks ih => simpa [getConfigKeys] using ih

theorem getConfigKeys_append (start : Option JValue) (l1 l2 : List String) :
    getConfigKeys start (l1 ++ l2) = getConfigKeys (getConfigKeys start l1) l2 := by
  simp [getConfigKeys, List.foldl_append]

theorem upper_key_lookup_none (m : List (String × JValue)) (hInv : InvSchema (.obj m))
    (k : String) (v : JValue) (hmem : jsLookup k m = some v) (hup : hasUpperAscii k = true) :
    jsLookup (jsToLower k) m = none := by
  obtain ⟨s, hs, hval⟩ := hInv
  obtain ⟨sub, rfl, hvo⟩ := validateValue_obj_node s m hs hval
  rcases hx : jsLookup (jsToLower k) m with _ | v2
  · rfl
  · exfalso
    obtain ⟨sch1, hl1, _⟩ := validateObj_lookup sub m hvo k v hmem
    obtain ⟨sch2, hl2, _⟩ := validateObj_lookup sub m hvo (jsToLower k) v2 hx
    have hnode := List.all_eq_true.1 allowed_no_lower_alias _ hs
    have hnode' : (sub.all (fun kv =>
        !(hasUpperAscii kv.1) || !(sub.any (fun kv2 => kv2.1 == jsToLower kv.1)))) = true := hnode
    have hk1 := jsLookup_mem k sub sch1 hl1
    have hk2 := jsLookup_mem (jsToLower k) sub sch2 hl2
    have hone : (!(hasUpperAscii k) || !(sub.any (fun kv2 => kv2.1 == jsToLower k))) = true :=
      List.all_eq_true.1 hnode' _ hk1
    have hany : sub.any (fun kv2 => kv2.1 == jsToLower k) = true :=
      List.any_eq_true.2 ⟨_, hk2, by simp⟩
    rw [hup, hany] at hone
    simp at hone

/-- C10: `getConfig` lowercases every dot-separated segment of the key path, so
for every configuration key that contains an uppercase ASCII letter (such as
`waitForConnections`) and exists in the schema-validated active environment
block, `getConfig` throws `InvalidConfigError` (modelled as `none`): the
lowercased segment cannot name any key of a validated object, because no node of
`allowedKeys` contains both a mixed-case key and its lowercased spelling. -/
theorem c10_uppercase_key_throws
    (config : List (String × JValue)) (keyPath : String)
    (pre post : List String) (k : String) (m : List (String × JValue)) (v : JValue)
    (hval : ConfigManager.validateConfig config allowedKeys = true)
    (hsplit : jsSplitDot keyPath = pre ++ k :: post)
    (hreach : getConfigKeys (envBlockOf config) (pre.map jsToLower) = some (.obj m))
    (hmem : jsLookup k m = some v)
    (hup : hasUpperAscii k = true) :
    ConfigManager.getConfig config keyPath = none := by
  have hInv : InvSchema (.obj m) :=
    getConfigKeys_inv (envBlockOf config) (pre.map jsToLower) _
      (fun u hu => envBlockOf_inv config hval u hu) hreach
  have hkp : keyPath ≠ "" := by
    intro h
    subst h
    have hone : ([""] : List String) = pre ++ k :: post := hsplit
    rcases pre with _ | ⟨p, ps⟩
    · simp only [List.nil_append] at hone
      injection hone with h1 h2
      subst h1
      simp [hasUpperAscii] at hup
    · simp only [List.cons_append] at hone
      injection hone with h1 h2
      cases ps <;> simp at h2
  unfold ConfigManager.getConfig
  rw [if_neg hkp, hsplit, List.map_append, List.map_cons, getConfigKeys_append, hreach]
  have hstep : jsGetProp (.obj m) (jsToLower k) = none := by
    simpa [jsGetProp] using upper_key_lookup_none m hInv k v hmem hup
  simp only [getConfigKeys, List.foldl_cons]
  have hbind : ((some (JValue.obj m)).bind fun u => jsGetProp u (jsToLower k)) = none := by
    simp [hstep]
  rw [hbind]
  exact getConfigKeys_none _

/-- The `database` block of a well-formed sample configuration. -/
def sampleDbBlock : List (String × JValue) :=
  [("host", .str "127.0.0.1"), ("user", .str "root"), ("password", .str "pw"),
   ("database", .str "app"), ("port", .num 3306),
   ("waitForConnections", .bool true), ("connectionLimit", .num 10), ("queueLimit", .num 0)]

/-- A configuration accepted by `validateConfig` against `allowedKeys`. -/
def sampleConfig : List (String × JValue) :=
  [("env", .str "local"),
   ("local", .obj
     [("host", .str "localhost"), ("url", .str "localhost:3000"), ("port", .num 3000),
      ("database", .obj sampleDbBlock),
      ("log", .obj [("directory", .str "logs")])])]

/-- C10 witness: `waitForConnections` exists in the validated sample
configuration, yet `getConfig("database.waitForConnections")` throws. -/
theorem c10_uppercase_key_throws_witness :
    ConfigManager.validateConfig sampleConfig allowedKeys = true
    ∧ ConfigManager.getConfig sampleConfig "database.waitForConnections" = none :=
  ⟨by decide,
   c10_uppercase_key_throws sampleConfig "database.waitForConnections" ["database"] []
     "waitForConnections" sampleDbBlock (.bool true)
     (by decide) (by rfl) (by rfl) (by rfl) (by rfl)⟩

end ExpressApi
